import Mathlib

/-!
Verification development for the streaming response client abstraction of a
project-organized chat application.  The embedded code consists of the two
provider clients (a local inference client, `LMStudioAPI`, and a cloud routing
client, `OpenRouterAPI`) and the chunked SSE-style stream decoder that both
duplicate verbatim.

Modelling conventions:
* Wire text is represented as `List Char` (`Chars`); helper functions
  (`splitNl`, `trimChars`, prefix check by `take`/`drop`) implement exactly the
  JavaScript string operations `split('\n')`, `trim()`, `startsWith('data: ')`
  and `slice(6)` used by the source.
* `JSON.parse` composed with the optional chain `choices?.[0]?.delta?.content`
  is an external platform facility; it is modelled by a parameter
  `parse : Chars → Option (Option String)` where the outer `Option` is parse
  success and the inner `Option` is presence of the content field
  (absent or null becomes `none`).
* The network is modelled by explicit environment values: `FetchResult` for the
  initiating request and a list of `ReadEvent`s for the streamed body, where
  `ReadEvent.ioError` models a rejected `reader.read()`.
* The source generators wrap their whole body in try/catch and never let an
  exception escape; accordingly the models are total functions returning the
  list of yielded fragments.
-/

abbrev Chars := List Char

/-- JavaScript `chunk.split('\n')`, accumulator form. -/
def splitNlAux : Chars → Chars → List Chars
  | [], acc => [acc.reverse]
  | c :: cs, acc =>
    if c = '\n' then acc.reverse :: splitNlAux cs [] else splitNlAux cs (c :: acc)

/-- JavaScript `chunk.split('\n')`. -/
def splitNl (s : Chars) : List Chars := splitNlAux s []

/-- Whitespace characters removed by JavaScript `trim()` (ASCII part). -/
def isWsChar (c : Char) : Bool :=
  c = ' ' || c = '\t' || c = '\n' || c = '\r' || c = '\x0b' || c = '\x0c'

/-- JavaScript `s.trim()`: drop whitespace from both ends. -/
def trimChars (l : Chars) : Chars :=
  ((l.dropWhile isWsChar).reverse.dropWhile isWsChar).reverse

/-- The SSE frame marker `"data: "` checked by `line.startsWith('data: ')`. -/
def dataMarker : Chars := "data: ".toList

/-- The termination sentinel `"[DONE]"`. -/
def doneChars : Chars := "[DONE]".toList

/-- Outcome of processing one line of a chunk inside the decode loop. -/
inductive LineOut where
  | skip
  | emit (s : String)
  | done
deriving DecidableEq

/-- One line of the decode loop shared by both clients:
`if (line.startsWith('data: '))`, `const data = line.slice(6).trim()`,
return on `[DONE]`, `JSON.parse` guarded by try/catch (parse failure is
skipped), and the truthiness guard `if (content) yield content`. -/
def processLine (parse : Chars → Option (Option String)) (line : Chars) : LineOut :=
  if line.take 6 = dataMarker then
    let data := trimChars (line.drop 6)
    if data = doneChars then .done
    else
      match parse data with
      | none => .skip
      | some none => .skip
      | some (some content) => if content = "" then .skip else .emit content
  else .skip

/-- The `for (const line of lines)` loop over one chunk; the boolean reports
whether the `[DONE]` sentinel was hit (the generator then returns, leaving the
remaining lines of the chunk unprocessed). -/
def processChunk (parse : Chars → Option (Option String)) :
    List Chars → List String × Bool
  | [] => ([], false)
  | line :: rest =>
    match processLine parse line with
    | .done => ([], true)
    | .emit s =>
      let r := processChunk parse rest
      (s :: r.1, r.2)
    | .skip => processChunk parse rest

/-- One observable event of `reader.read()`: a decoded text chunk, or a
rejection (connection drop / transport failure). -/
inductive ReadEvent where
  | chunk (s : Chars)
  | ioError
deriving DecidableEq

/-- How the read loop ended: the reader reported done, the `[DONE]` sentinel
was seen, or `reader.read()` threw. -/
inductive StreamEnd where
  | ended
  | sawDone
  | ioFailed
deriving DecidableEq

/-- The `while (true) { ... reader.read() ... }` loop: splits each chunk on
newlines and feeds the lines to `processChunk`; stops at the sentinel; a read
rejection aborts the loop (the exception propagates to the outer catch). -/
def runStream (parse : Chars → Option (Option String)) :
    List ReadEvent → List String × StreamEnd
  | [] => ([], .ended)
  | .ioError :: _ => ([], .ioFailed)
  | .chunk s :: rest =>
    let r := processChunk parse (splitNl s)
    if r.2 then (r.1, .sawDone)
    else
      let r2 := runStream parse rest
      (r.1 ++ r2.1, r2.2)

/-- Observable shape of a `fetch` `Response` for these clients: `response.ok`,
`response.body` (null possible), and `response.json()` abstracted to the
optional chain result `choices?.[0]?.message?.content` (outer `none` models a
`json()` rejection, inner `none` an absent or null content field). -/
structure HttpResponse where
  ok : Bool
  body? : Option (List ReadEvent)
  json? : Option (Option String)
deriving DecidableEq

/-- Outcome of the initiating `fetch` call itself. -/
inductive FetchResult where
  | netError
  | success (r : HttpResponse)
deriving DecidableEq

/-- The apology fragment yielded by the LMStudio catch block. -/
def lmApology : String := "Sorry, I encountered an error while processing your request."

/-- `LMStudioAPI.sendMessage` as the list of fragments the async generator
yields, given the fetch environment and the effective `stream` option.
The non-success branch throws, which the enclosing catch converts into the
apology fragment; `stream && response.body` selects the streaming branch;
the non-streaming branch yields `choices?.[0]?.message?.content || ''`. -/
def lmSendMessage (parse : Chars → Option (Option String))
    (fr : FetchResult) (streamOpt : Bool) : List String :=
  match fr with
  | .netError => [lmApology]
  | .success r =>
    if !r.ok then [lmApology]
    else
      match streamOpt, r.body? with
      | true, some events =>
        let s := runStream parse events
        match s.2 with
        | .ioFailed => s.1 ++ [lmApology]
        | _ => s.1
      | _, _ =>
        match r.json? with
        | none => [lmApology]
        | some mc => [mc.getD ""]

/-- `LMStudioAPI.getSimpleResponse`: drives `sendMessage` with
`stream: false` and returns `result.value || 'No response received'`
(`result.value` is the first yielded fragment, or undefined when the generator
yields nothing; the `||` treats the empty string like undefined). -/
def lmGetSimpleResponse (parse : Chars → Option (Option String))
    (fr : FetchResult) : String :=
  match (lmSendMessage parse fr false).head? with
  | none => "No response received"
  | some v => if v = "" then "No response received" else v

/-- `LMStudioAPI.isAvailable` probe outcome: the fetch either threw (network
error, or the 5-second `AbortSignal.timeout` fired) or returned a response
with the given `ok` flag. -/
inductive ProbeResult where
  | threw
  | resp (ok : Bool)
deriving DecidableEq

/-- `LMStudioAPI.isAvailable`: `return response.ok` in the try, `return false`
in the catch. -/
def lmIsAvailable : ProbeResult → Bool
  | .threw => false
  | .resp ok => ok

/-- The explanatory fragment the cloud client yields when no API key could be
resolved. -/
def orKeyMissing : String :=
  "OpenRouter API key not configured. Please set your API key in the settings."

/-- The apology fragment yielded by the OpenRouter catch block. -/
def orApology : String :=
  "Sorry, I encountered an error while processing your request. Please check your OpenRouter API key and try again."

/-- Lazy credential resolution at the top of the cloud client operations:
`if (!this.apiKey) { try { this.apiKey = await getOpenRouterApiKey() } catch { log } }`.
The collaborator outcome is `Except Unit String` (`error` models a rejected
fetch of the stored key, which leaves the cached key unchanged). -/
def resolveKey (apiKey : String) (keyFetch : Except Unit String) : String :=
  if apiKey = "" then
    match keyFetch with
    | .ok k => k
    | .error _ => apiKey
  else apiKey

/-- Observable target of one HTTP request: URL and header list (the JSON body
is not needed by any claim and is omitted). -/
structure Request where
  url : String
  headers : List (String × String)
deriving DecidableEq

/-- The chat completion request built by `OpenRouterAPI.sendMessage`:
`Content-Type`, `Authorization: Bearer <key>`, and the two attribution headers
`HTTP-Referer: window.location.origin` and `X-Title: 'ZChat'`. -/
def orChatRequest (baseUrl origin key : String) : Request :=
  { url := baseUrl ++ "/chat/completions"
    headers := [("Content-Type", "application/json"),
                ("Authorization", "Bearer " ++ key),
                ("HTTP-Referer", origin),
                ("X-Title", "ZChat")] }

/-- The model catalog request built by `OpenRouterAPI.getModels`: only the
`Authorization` header. -/
def orModelsRequest (baseUrl key : String) : Request :=
  { url := baseUrl ++ "/models"
    headers := [("Authorization", "Bearer " ++ key)] }

/-- The usage request built by `OpenRouterAPI.getUsage`: only the
`Authorization` header. -/
def orUsageRequest (baseUrl key : String) : Request :=
  { url := baseUrl ++ "/auth/key"
    headers := [("Authorization", "Bearer " ++ key)] }

/-- `OpenRouterAPI.sendMessage` as the pair of (fragments yielded, requests
issued).  After lazy key resolution, an unconfigured key short-circuits to the
explanatory fragment with no request; otherwise the chat completion request is
issued and the body is handled exactly as in `lmSendMessage`, with the
OpenRouter apology string in the catch. -/
def orSendMessage (parse : Chars → Option (Option String))
    (apiKey : String) (keyFetch : Except Unit String) (fr : FetchResult)
    (baseUrl origin : String) (streamOpt : Bool) : List String × List Request :=
  let key := resolveKey apiKey keyFetch
  if key = "" then ([orKeyMissing], [])
  else
    (match fr with
     | .netError => [orApology]
     | .success r =>
       if !r.ok then [orApology]
       else
         match streamOpt, r.body? with
         | true, some events =>
           let s := runStream parse events
           match s.2 with
           | .ioFailed => s.1 ++ [orApology]
           | _ => s.1
         | _, _ =>
           match r.json? with
           | none => [orApology]
           | some mc => [mc.getD ""],
     [orChatRequest baseUrl origin key])

/-- `OpenRouterAPI.getSimpleResponse`: drives `sendMessage` with
`stream: false` and returns `result.value || 'No response received'`. -/
def orGetSimpleResponse (parse : Chars → Option (Option String))
    (apiKey : String) (keyFetch : Except Unit String) (fr : FetchResult)
    (baseUrl origin : String) : String :=
  match (orSendMessage parse apiKey keyFetch fr baseUrl origin false).1.head? with
  | none => "No response received"
  | some v => if v = "" then "No response received" else v

/-- A frame line as produced by a conforming server: marker, payload, newline. -/
def frameLine (p : Chars) : Chars := dataMarker ++ p ++ ['\n']

/-- A network chunk consisting of whole frames. -/
def joinFrames (c : List Chars) : Chars := (c.map frameLine).flatten

/-- Payload-level semantics of the decode loop on a sequence of whole frames:
what `processChunk` computes once chunk boundaries respect frame boundaries. -/
def framesOut (parse : Chars → Option (Option String)) :
    List Chars → List String × Bool
  | [] => ([], false)
  | p :: ps =>
    match processLine parse (dataMarker ++ p) with
    | .done => ([], true)
    | .emit s =>
      let r := framesOut parse ps
      (s :: r.1, r.2)
    | .skip => framesOut parse ps

/-- Test fixture for the abstract JSON extractor: a few named payloads mapping
to delta contents, everything else malformed. -/
def parseFx : Chars → Option (Option String) := fun p =>
  if p = "frameHi".toList then some (some "Hi")
  else if p = "frameThere".toList then some (some " there")
  else if p = "frameEmpty".toList then some (some "")
  else if p = "frameNull".toList then some none
  else none

theorem dataMarker_length : dataMarker.length = 6 := by decide

/-- Taking the marker length off a marker-prefixed line recovers the marker. -/
theorem dataMarker_take (p : Chars) : (dataMarker ++ p).take 6 = dataMarker :=
  List.take_left' dataMarker_length

/-- Dropping the marker length off a marker-prefixed line recovers the payload. -/
theorem dataMarker_drop (p : Chars) : (dataMarker ++ p).drop 6 = p :=
  List.drop_left' dataMarker_length

/-- Payload-level characterization of `processLine` on a marker-prefixed line. -/
theorem processLine_marker (parse : Chars → Option (Option String)) (p : Chars) :
    processLine parse (dataMarker ++ p) =
      (if trimChars p = doneChars then .done
       else
         match parse (trimChars p) with
         | none => .skip
         | some none => .skip
         | some (some c) => if c = "" then .skip else .emit c) := by
  simp [processLine, dataMarker_take, dataMarker_drop]

/-- Splitting on the first newline of a newline-free prefix. -/
theorem splitNlAux_append (a : Chars) (b acc : Chars) (h : '\n' ∉ a) :
    splitNlAux (a ++ '\n' :: b) acc = (acc.reverse ++ a) :: splitNlAux b [] := by
  induction a generalizing acc with
  | nil => simp [splitNlAux]
  | cons c cs ih =>
    have hc : ¬(c = '\n') := fun e => h (e ▸ List.mem_cons_self c cs)
    have hcs : '\n' ∉ cs := fun m => h (List.mem_cons_of_mem _ m)
    simp [splitNlAux, hc, ih _ hcs]

/-- A chunk starting with a whole frame splits into the frame line and the rest. -/
theorem splitNl_frame (p rest : Chars) (h : '\n' ∉ p) :
    splitNl (frameLine p ++ rest) = (dataMarker ++ p) :: splitNl rest := by
  have hm : '\n' ∉ dataMarker ++ p := by
    intro m
    rcases List.mem_append.1 m with m | m
    · revert m; decide
    · exact h m
  have : frameLine p ++ rest = (dataMarker ++ p) ++ '\n' :: rest := by
    simp [frameLine]
  rw [splitNl, this, splitNlAux_append _ _ _ hm]
  simp [splitNl]

/-- When a chunk consists of whole frames with newline-free payloads, the line
loop computes exactly the payload-level semantics. -/
theorem processChunk_joinFrames (parse : Chars → Option (Option String))
    (c : List Chars) (h : ∀ p ∈ c, '\n' ∉ p) :
    processChunk parse (splitNl (joinFrames c)) = framesOut parse c := by
  induction c with
  | nil =>
    have h : dataMarker ≠ ([] : Chars) := by decide
    simp [joinFrames, splitNl, splitNlAux, processChunk, processLine, h, framesOut]
  | cons p ps ih =>
    have hp : '\n' ∉ p := h p (List.mem_cons_self p ps)
    have hps : ∀ q ∈ ps, '\n' ∉ q := fun q m => h q (List.mem_cons_of_mem _ m)
    have hjoin : joinFrames (p :: ps) = frameLine p ++ joinFrames ps := by
      simp [joinFrames]
    rw [hjoin, splitNl_frame p _ hp]
    simp only [processChunk, framesOut]
    cases processLine parse (dataMarker ++ p) <;> simp [ih hps]

/-- Payload-level semantics is compositional across concatenation (unless the
first part already hit the sentinel). -/
theorem framesOut_append (parse : Chars → Option (Option String))
    (a b : List Chars) :
    framesOut parse (a ++ b) =
      if (framesOut parse a).2 then framesOut parse a
      else ((framesOut parse a).1 ++ (framesOut parse b).1, (framesOut parse b).2) := by
  induction a with
  | nil => simp [framesOut]
  | cons p ps ih =>
    simp only [List.cons_append]
    cases h : processLine parse (dataMarker ++ p) with
    | done => simp [framesOut, h]
    | emit s =>
      simp only [framesOut, h, List.append_eq, ih]
      cases hd : (framesOut parse ps).2 <;> simp [hd]
    | skip =>
      simp only [framesOut, h, List.append_eq, ih]

/-- The read loop over whole-frame chunks computes the payload-level semantics
of the concatenated payload sequence. -/
theorem runStream_chunks (parse : Chars → Option (Option String))
    (chunks : List (List Chars)) (h : ∀ p ∈ chunks.flatten, '\n' ∉ p) :
    runStream parse (chunks.map (fun c => ReadEvent.chunk (joinFrames c))) =
      ((framesOut parse chunks.flatten).1,
       if (framesOut parse chunks.flatten).2 then .sawDone else .ended) := by
  induction chunks with
  | nil => simp [runStream, framesOut]
  | cons c cs ih =>
    have hc : ∀ p ∈ c, '\n' ∉ p := fun p m => h p (by simp [List.mem_append, m])
    have hcs : ∀ p ∈ cs.flatten, '\n' ∉ p := fun p m => h p (by simp [List.mem_append, m])
    simp only [List.map_cons, runStream, processChunk_joinFrames parse c hc,
      List.flatten_cons, framesOut_append]
    cases hd : (framesOut parse c).2 <;> simp [hd, ih hcs]

/-- A frame whose payload trims to the sentinel makes the loop return. -/
theorem processLine_done (parse : Chars → Option (Option String)) (p : Chars)
    (hd : trimChars p = doneChars) :
    processLine parse (dataMarker ++ p) = .done := by
  rw [processLine_marker]; simp [hd]

/-- A frame with nonempty extracted content is yielded. -/
theorem processLine_emit (parse : Chars → Option (Option String)) (p : Chars) (t : String)
    (hd : trimChars p ≠ doneChars) (hp : parse (trimChars p) = some (some t))
    (ht : t ≠ "") :
    processLine parse (dataMarker ++ p) = .emit t := by
  rw [processLine_marker]; simp [hd, hp, ht]

/-- A frame whose payload fails to parse is skipped. -/
theorem processLine_skip_malformed (parse : Chars → Option (Option String)) (p : Chars)
    (hd : trimChars p ≠ doneChars) (hp : parse (trimChars p) = none) :
    processLine parse (dataMarker ++ p) = .skip := by
  rw [processLine_marker]; simp [hd, hp]

/-- A frame whose content field is absent, null or empty is skipped. -/
theorem processLine_skip_empty (parse : Chars → Option (Option String)) (p : Chars)
    (hd : trimChars p ≠ doneChars)
    (hp : parse (trimChars p) = some none ∨ parse (trimChars p) = some (some "")) :
    processLine parse (dataMarker ++ p) = .skip := by
  rw [processLine_marker]
  rcases hp with hp | hp <;> simp [hd, hp]

/-- The loop only ever emits nonempty fragments. -/
theorem processLine_emit_ne (parse : Chars → Option (Option String)) (l : Chars)
    (c : String) (h : processLine parse l = .emit c) : c ≠ "" := by
  by_cases h6 : l.take 6 = dataMarker
  · simp only [processLine, h6, eq_self_iff_true, if_true] at h
    split at h
    · simp at h
    · split at h
      · simp at h
      · simp at h
      · split at h
        · simp at h
        · simp only [LineOut.emit.injEq] at h
          subst h
          assumption
  · simp [processLine, h6] at h

/-- Payload-level run over valid frames followed by the sentinel and arbitrary
trailing frames: yields exactly the valid texts and reports the sentinel. -/
theorem framesOut_good_done (parse : Chars → Option (Option String))
    (t : Chars → String) (good junk : List Chars) (dp : Chars)
    (hg : ∀ p ∈ good,
      trimChars p ≠ doneChars ∧ parse (trimChars p) = some (some (t p)) ∧ t p ≠ "")
    (hdp : trimChars dp = doneChars) :
    framesOut parse (good ++ dp :: junk) = (good.map t, true) := by
  induction good with
  | nil => simp [framesOut, processLine_done parse dp hdp]
  | cons p ps ih =>
    obtain ⟨h1, h2, h3⟩ := hg p (List.mem_cons_self p ps)
    have ihs := ih (fun q m => hg q (List.mem_cons_of_mem _ m))
    simp [framesOut, processLine_emit parse p (t p) h1 h2 h3, ihs]

/-- Payload-level run over a mix of valid and malformed frames (no sentinel):
yields exactly the valid texts, in order. -/
theorem framesOut_filter (parse : Chars → Option (Option String))
    (t : Chars → String) (ps : List Chars)
    (h : ∀ p ∈ ps, trimChars p ≠ doneChars ∧
      (parse (trimChars p) = none ∨
       (parse (trimChars p) = some (some (t p)) ∧ t p ≠ ""))) :
    framesOut parse ps =
      ((ps.filter fun p => (parse (trimChars p)).isSome).map t, false) := by
  induction ps with
  | nil => simp [framesOut]
  | cons p rest ih =>
    obtain ⟨h1, h2⟩ := h p (List.mem_cons_self p rest)
    have ihs := ih (fun q m => h q (List.mem_cons_of_mem _ m))
    rcases h2 with hm | ⟨hv, hne⟩
    · simp [framesOut, processLine_skip_malformed parse p h1 hm, ihs,
        List.filter_cons, hm]
    · simp [framesOut, processLine_emit parse p (t p) h1 hv hne, ihs,
        List.filter_cons, hv]

/-- Appending more read events after a normally ended run processes them in
sequence; the earlier fragments are preserved. -/
theorem runStream_append_ended (parse : Chars → Option (Option String))
    (evs more : List ReadEvent) (h : (runStream parse evs).2 = .ended) :
    runStream parse (evs ++ more) =
      ((runStream parse evs).1 ++ (runStream parse more).1,
       (runStream parse more).2) := by
  induction evs with
  | nil => simp [runStream]
  | cons e rest ih =>
    cases e with
    | ioError => simp [runStream] at h
    | chunk s =>
      revert h
      simp only [runStream, List.cons_append]
      cases hd : (processChunk parse (splitNl s)).2
      · intro h
        simp only [hd, Bool.false_eq_true, if_false, List.append_eq] at h ⊢
        rw [ih h]
        simp
      · intro h
        simp [hd] at h

/-- Every fragment produced by the line loop is nonempty. -/
theorem processChunk_mem_ne (parse : Chars → Option (Option String))
    (lines : List Chars) (s : String) (h : s ∈ (processChunk parse lines).1) :
    s ≠ "" := by
  induction lines with
  | nil => simp [processChunk] at h
  | cons l rest ih =>
    revert h
    simp only [processChunk]
    cases hl : processLine parse l with
    | done => intro h; simp at h
    | skip => intro h; exact ih h
    | emit c =>
      intro h
      rcases List.mem_cons.1 h with rfl | h2
      · exact processLine_emit_ne parse l s hl
      · exact ih h2

/-- Every fragment produced by the read loop is nonempty. -/
theorem runStream_mem_ne (parse : Chars → Option (Option String))
    (evs : List ReadEvent) (s : String) (h : s ∈ (runStream parse evs).1) :
    s ≠ "" := by
  induction evs with
  | nil => simp [runStream] at h
  | cons e rest ih =>
    cases e with
    | ioError => simp [runStream] at h
    | chunk cs =>
      revert h
      simp only [runStream]
      cases hd : (processChunk parse (splitNl cs)).2 <;> intro h
      · simp only [Bool.false_eq_true, if_false] at h
        rcases List.mem_append.1 h with h | h
        · exact processChunk_mem_ne parse _ s h
        · exact ih h
      · simp only [if_true] at h
        exact processChunk_mem_ne parse _ s h

/-- C1 counterexample: at a concrete non-success response (HTTP 401 style,
`ok = false`), `sendMessage` does NOT propagate an error to the caller: on
both clients the internally thrown error is caught by the generator's own
catch block and converted into exactly one yielded apology text fragment,
contradicting the claim that it is "not converted into a yielded text
fragment". -/
theorem c1_counterexample :
    lmSendMessage parseFx (.success ⟨false, some [], some none⟩) true = [lmApology] ∧
    (orSendMessage parseFx "k" (.ok "k") (.success ⟨false, some [], some none⟩)
      "https://openrouter.ai/api/v1" "http://localhost:5173" true).1 = [orApology] := by
  constructor <;> rfl

/-- C1 amended: on a non-success HTTP status of the initiating request, for
any body, json outcome and stream option, both clients yield exactly one
apology fragment (the thrown error is swallowed by the enclosing catch); no
exception reaches the caller. -/
theorem c1_amended (parse : Chars → Option (Option String))
    (b? : Option (List ReadEvent)) (j? : Option (Option String)) (streamOpt : Bool)
    (apiKey : String) (keyFetch : Except Unit String) (baseUrl origin : String)
    (hkey : resolveKey apiKey keyFetch ≠ "") :
    lmSendMessage parse (.success ⟨false, b?, j?⟩) streamOpt = [lmApology] ∧
    (orSendMessage parse apiKey keyFetch (.success ⟨false, b?, j?⟩)
      baseUrl origin streamOpt).1 = [orApology] := by
  constructor
  · rfl
  · simp [orSendMessage, hkey]

/-- C1 witness: the amended statement at a concrete unreachable-status
environment. -/
theorem c1_witness :
    lmSendMessage parseFx (.success ⟨false, none, none⟩) true = [lmApology] ∧
    (orSendMessage parseFx "k" (.error ()) (.success ⟨false, none, none⟩)
      "b" "o" true).1 = [orApology] :=
  c1_amended parseFx none none true "k" (.error ()) "b" "o" (by decide)

/-- C2 counterexample: the model catalog and usage requests of the cloud
client do NOT carry the attribution headers, contradicting the claim that
every request carries them. -/
theorem c2_counterexample :
    "HTTP-Referer" ∉
      ((orModelsRequest "https://openrouter.ai/api/v1" "k").headers.map Prod.fst) ∧
    "X-Title" ∉
      ((orUsageRequest "https://openrouter.ai/api/v1" "k").headers.map Prod.fst) := by
  decide

/-- C2 amended: the chat completion request carries the bearer credential and
both attribution headers; the catalog and usage requests carry only the
bearer credential. -/
theorem c2_amended (baseUrl origin key : String) :
    (("Authorization", "Bearer " ++ key) ∈ (orChatRequest baseUrl origin key).headers ∧
     ("HTTP-Referer", origin) ∈ (orChatRequest baseUrl origin key).headers ∧
     ("X-Title", "ZChat") ∈ (orChatRequest baseUrl origin key).headers) ∧
    (orModelsRequest baseUrl key).headers = [("Authorization", "Bearer " ++ key)] ∧
    (orUsageRequest baseUrl key).headers = [("Authorization", "Bearer " ++ key)] := by
  refine ⟨⟨?_, ?_, ?_⟩, rfl, rfl⟩ <;> simp [orChatRequest]

/-- C6: with no cached credential and a settings collaborator that either
fails or returns an empty key, the cloud `sendMessage` short-circuits: it
yields exactly the explanatory fragment, issues no HTTP request at all
(request list empty, for every possible fetch environment), and does not
raise. -/
theorem c6_unconfigured (parse : Chars → Option (Option String))
    (keyFetch : Except Unit String) (fr : FetchResult)
    (baseUrl origin : String) (streamOpt : Bool)
    (hkf : keyFetch = .error () ∨ keyFetch = .ok "") :
    orSendMessage parse "" keyFetch fr baseUrl origin streamOpt = ([orKeyMissing], []) := by
  rcases hkf with h | h <;> subst h <;> rfl

/-- C6 witness: concrete unconfigured invocation. -/
theorem c6_witness :
    orSendMessage parseFx "" (.error ()) .netError "b" "o" true = ([orKeyMissing], []) :=
  c6_unconfigured parseFx (.error ()) .netError "b" "o" true (Or.inl rfl)

/-- C7: the availability probe returns `false` whenever the catalog-listing
fetch threw (network error or the bounded timeout abort) or returned a
non-success status, and returns `true` exactly when the request succeeded;
being a total function, it never throws. -/
theorem c7_isAvailable :
    lmIsAvailable .threw = false ∧
    (∀ ok, lmIsAvailable (.resp ok) = ok) ∧
    (∀ pr, lmIsAvailable pr = true ↔ pr = .resp true) := by
  refine ⟨rfl, fun ok => rfl, fun pr => ?_⟩
  cases pr with
  | threw => simp [lmIsAvailable]
  | resp ok => cases ok <;> simp [lmIsAvailable]

/-- C3 counterexample: the same valid one-frame SSE byte stream (payload
`frameHi`, delta text `Hi`) yields its frame text when delivered as one whole
chunk, but yields NOTHING when delivered across an arbitrary chunk boundary
(`da` then `ta: frameHi\n`): each chunk is split on newlines independently
with no carry-over buffer, so neither partial line starts with the frame
marker, contradicting the claim for arbitrary network-chunk boundaries. -/
theorem c3_counterexample :
    lmSendMessage parseFx
      (.success ⟨true, some [.chunk "data: frameHi\n".toList], none⟩) true = ["Hi"] ∧
    lmSendMessage parseFx
      (.success ⟨true, some [.chunk "da".toList, .chunk "ta: frameHi\n".toList], none⟩)
      true = [] := by
  constructor <;> rfl

/-- C3 amended: when every network chunk consists of whole frames (chunk
boundaries respect frame boundaries), streaming `sendMessage` on both clients
yields exactly the frames' delta-content texts in original frame order and
stops at the first `[DONE]` frame even if further frames follow. -/
theorem c3_amended (parse : Chars → Option (Option String)) (t : Chars → String)
    (chunks : List (List Chars)) (good junk : List Chars) (dp : Chars)
    (j? : Option (Option String))
    (apiKey : String) (keyFetch : Except Unit String) (baseUrl origin : String)
    (hnl : ∀ p ∈ chunks.flatten, '\n' ∉ p)
    (hflat : chunks.flatten = good ++ dp :: junk)
    (hg : ∀ p ∈ good,
      trimChars p ≠ doneChars ∧ parse (trimChars p) = some (some (t p)) ∧ t p ≠ "")
    (hdp : trimChars dp = doneChars)
    (hkey : resolveKey apiKey keyFetch ≠ "") :
    lmSendMessage parse
      (.success ⟨true, some (chunks.map fun c => .chunk (joinFrames c)), j?⟩) true
      = good.map t ∧
    (orSendMessage parse apiKey keyFetch
      (.success ⟨true, some (chunks.map fun c => .chunk (joinFrames c)), j?⟩)
      baseUrl origin true).1 = good.map t := by
  have hrun := runStream_chunks parse chunks hnl
  rw [hflat, framesOut_good_done parse t good junk dp hg hdp] at hrun
  constructor
  · simp [lmSendMessage, hrun]
  · simp [orSendMessage, hkey, hrun]

/-- C3 witness: two valid frames split across two chunks at a frame boundary,
followed by the sentinel and a trailing junk frame in the same chunk. -/
theorem c3_witness :
    lmSendMessage parseFx
      (.success ⟨true,
        some ([["frameHi".toList],
               ["frameThere".toList, "[DONE]".toList, "junkX".toList]].map
          fun c => .chunk (joinFrames c)), none⟩) true = ["Hi", " there"] ∧
    (orSendMessage parseFx "k" (.error ())
      (.success ⟨true,
        some ([["frameHi".toList],
               ["frameThere".toList, "[DONE]".toList, "junkX".toList]].map
          fun c => .chunk (joinFrames c)), none⟩) "b" "o" true).1 = ["Hi", " there"] := by
  have h := c3_amended parseFx
    (fun p => if p = "frameThere".toList then " there" else "Hi")
    [["frameHi".toList], ["frameThere".toList, "[DONE]".toList, "junkX".toList]]
    ["frameHi".toList, "frameThere".toList] ["junkX".toList] "[DONE]".toList none
    "k" (.error ()) "b" "o"
    (by decide) (by decide) (by decide) (by decide) (by decide)
  simpa using h

/-- C4: when the stream delivers events that decode normally and then
`reader.read()` fails, both clients yield all fragments already decoded
(partial text is not retracted) followed by exactly one terminal apology
fragment, and the generator then ends; the model is a total function, so no
exception escapes. -/
theorem c4_midstream_failure (parse : Chars → Option (Option String))
    (evs rest : List ReadEvent) (j? : Option (Option String))
    (apiKey : String) (keyFetch : Except Unit String) (baseUrl origin : String)
    (hend : (runStream parse evs).2 = .ended)
    (hkey : resolveKey apiKey keyFetch ≠ "") :
    lmSendMessage parse (.success ⟨true, some (evs ++ .ioError :: rest), j?⟩) true
      = (runStream parse evs).1 ++ [lmApology] ∧
    (orSendMessage parse apiKey keyFetch
      (.success ⟨true, some (evs ++ .ioError :: rest), j?⟩) baseUrl origin true).1
      = (runStream parse evs).1 ++ [orApology] := by
  have h := runStream_append_ended parse evs (.ioError :: rest) hend
  have h2 : runStream parse (.ioError :: rest) = ([], .ioFailed) := rfl
  rw [h2] at h
  simp only [List.append_nil] at h
  constructor
  · simp [lmSendMessage, h]
  · simp [orSendMessage, hkey, h]

/-- C4 witness: one valid frame then a connection drop; the consumer gets the
decoded fragment and one apology. -/
theorem c4_witness :
    lmSendMessage parseFx
      (.success ⟨true,
        some ([.chunk "data: frameHi\n".toList] ++ .ioError :: []), none⟩) true
      = (runStream parseFx [.chunk "data: frameHi\n".toList]).1 ++ [lmApology] ∧
    (orSendMessage parseFx "k" (.error ())
      (.success ⟨true,
        some ([.chunk "data: frameHi\n".toList] ++ .ioError :: []), none⟩)
      "b" "o" true).1
      = (runStream parseFx [.chunk "data: frameHi\n".toList]).1 ++ [orApology] :=
  c4_midstream_failure parseFx [.chunk "data: frameHi\n".toList] [] none
    "k" (.error ()) "b" "o" (by decide) (by decide)

/-- C5: for a stream of whole frames mixing valid frames with at least one
malformed-JSON frame (and no sentinel), both clients yield exactly the valid
frames' texts in original order; malformed frames are skipped without
aborting or truncating the remainder, and nothing is raised. -/
theorem c5_malformed_skipped (parse : Chars → Option (Option String))
    (t : Chars → String) (chunks : List (List Chars)) (j? : Option (Option String))
    (apiKey : String) (keyFetch : Except Unit String) (baseUrl origin : String)
    (hnl : ∀ p ∈ chunks.flatten, '\n' ∉ p)
    (h : ∀ p ∈ chunks.flatten, trimChars p ≠ doneChars ∧
      (parse (trimChars p) = none ∨
       (parse (trimChars p) = some (some (t p)) ∧ t p ≠ "")))
    (hmal : ∃ p ∈ chunks.flatten, parse (trimChars p) = none)
    (hkey : resolveKey apiKey keyFetch ≠ "") :
    lmSendMessage parse
      (.success ⟨true, some (chunks.map fun c => .chunk (joinFrames c)), j?⟩) true
      = ((chunks.flatten.filter fun p => (parse (trimChars p)).isSome).map t) ∧
    (orSendMessage parse apiKey keyFetch
      (.success ⟨true, some (chunks.map fun c => .chunk (joinFrames c)), j?⟩)
      baseUrl origin true).1
      = ((chunks.flatten.filter fun p => (parse (trimChars p)).isSome).map t) := by
  have hrun := runStream_chunks parse chunks hnl
  rw [framesOut_filter parse t _ h] at hrun
  constructor
  · simp [lmSendMessage, hrun]
  · simp [orSendMessage, hkey, hrun]

/-- C5 witness: a malformed frame interleaved between two valid frames. -/
theorem c5_witness :
    lmSendMessage parseFx
      (.success ⟨true,
        some ([["frameHi".toList, "badjson".toList, "frameThere".toList]].map
          fun c => .chunk (joinFrames c)), none⟩) true = ["Hi", " there"] ∧
    (orSendMessage parseFx "k" (.error ())
      (.success ⟨true,
        some ([["frameHi".toList, "badjson".toList, "frameThere".toList]].map
          fun c => .chunk (joinFrames c)), none⟩) "b" "o" true).1 = ["Hi", " there"] := by
  have h := c5_malformed_skipped parseFx
    (fun p => if p = "frameThere".toList then " there" else "Hi")
    [["frameHi".toList, "badjson".toList, "frameThere".toList]] none
    "k" (.error ()) "b" "o"
    (by decide) (by decide) (by decide) (by decide)
  simpa using h

/-- C8: a successful non-streaming invocation (`stream: false`, `ok` response
whose parsed body carries `choices[0].message.content`) yields exactly one
fragment equal to that content, on both clients. -/
theorem c8_nonstreaming (parse : Chars → Option (Option String))
    (b? : Option (List ReadEvent)) (mc : String)
    (apiKey : String) (keyFetch : Except Unit String) (baseUrl origin : String)
    (hkey : resolveKey apiKey keyFetch ≠ "") :
    lmSendMessage parse (.success ⟨true, b?, some (some mc)⟩) false = [mc] ∧
    (orSendMessage parse apiKey keyFetch (.success ⟨true, b?, some (some mc)⟩)
      baseUrl origin false).1 = [mc] := by
  constructor
  · cases b? <;> rfl
  · cases b? <;> simp [orSendMessage, hkey]

/-- C8 witness: concrete successful non-streaming response. -/
theorem c8_witness :
    lmSendMessage parseFx (.success ⟨true, none, some (some "Hello")⟩) false
      = ["Hello"] ∧
    (orSendMessage parseFx "k" (.error ())
      (.success ⟨true, none, some (some "Hello")⟩) "b" "o" false).1 = ["Hello"] :=
  c8_nonstreaming parseFx none "Hello" "k" (.error ()) "b" "o" (by decide)

/-- C9 counterexample: a successful non-streaming response whose message
content is the empty string makes the generator yield exactly one fragment
(the empty string), yet `getSimpleResponse` returns the sentinel instead of
that sole yielded fragment, because `result.value || sentinel` treats the
empty string like absence. -/
theorem c9_counterexample :
    lmSendMessage parseFx (.success ⟨true, none, some (some "")⟩) false = [""] ∧
    lmGetSimpleResponse parseFx (.success ⟨true, none, some (some "")⟩)
      = "No response received" := by
  constructor <;> rfl

/-- C9 amended: `getSimpleResponse` returns the sentinel when the generator
yields nothing OR when its first yielded fragment is the empty string;
otherwise it returns the first (sole) yielded fragment — on both clients. -/
theorem c9_amended (parse : Chars → Option (Option String)) (fr : FetchResult)
    (apiKey : String) (keyFetch : Except Unit String) (frO : FetchResult)
    (baseUrl origin : String) :
    ((lmSendMessage parse fr false = [] ∨
      (lmSendMessage parse fr false).head? = some "") →
      lmGetSimpleResponse parse fr = "No response received") ∧
    (∀ s, s ≠ "" → (lmSendMessage parse fr false).head? = some s →
      lmGetSimpleResponse parse fr = s) ∧
    (((orSendMessage parse apiKey keyFetch frO baseUrl origin false).1 = [] ∨
      ((orSendMessage parse apiKey keyFetch frO baseUrl origin false).1).head? = some "") →
      orGetSimpleResponse parse apiKey keyFetch frO baseUrl origin
        = "No response received") ∧
    (∀ s, s ≠ "" →
      ((orSendMessage parse apiKey keyFetch frO baseUrl origin false).1).head? = some s →
      orGetSimpleResponse parse apiKey keyFetch frO baseUrl origin = s) := by
  refine ⟨fun h => ?_, fun s hs hh => ?_, fun h => ?_, fun s hs hh => ?_⟩
  · rcases h with h | h
    · simp [lmGetSimpleResponse, h]
    · simp [lmGetSimpleResponse, h]
  · simp [lmGetSimpleResponse, hh, hs]
  · rcases h with h | h
    · simp [orGetSimpleResponse, h]
    · simp [orGetSimpleResponse, h]
  · simp [orGetSimpleResponse, hh, hs]

/-- C9 witness: a nonempty sole fragment is returned as is. -/
theorem c9_witness :
    lmGetSimpleResponse parseFx (.success ⟨true, none, some (some "Hello")⟩)
      = "Hello" ∧
    orGetSimpleResponse parseFx "k" (.error ())
      (.success ⟨true, none, some (some "Hello")⟩) "b" "o" = "Hello" := by
  exact ⟨(c9_amended parseFx (.success ⟨true, none, some (some "Hello")⟩)
      "k" (.error ()) (.success ⟨true, none, some (some "Hello")⟩) "b" "o").2.1
      "Hello" (by decide) (by decide),
    (c9_amended parseFx (.success ⟨true, none, some (some "Hello")⟩)
      "k" (.error ()) (.success ⟨true, none, some (some "Hello")⟩) "b" "o").2.2.2
      "Hello" (by decide) (by decide)⟩

/-- C10: every fragment the streaming decode loop yields is a nonempty
string, and a frame whose `choices[0].delta.content` is absent, null, or the
empty string produces no fragment at all (the truthiness guard skips it). -/
theorem c10_fragments_nonempty :
    (∀ (parse : Chars → Option (Option String)) (evs : List ReadEvent) (s : String),
      s ∈ (runStream parse evs).1 → s ≠ "") ∧
    (∀ (parse : Chars → Option (Option String)) (p : Chars),
      trimChars p ≠ doneChars →
      (parse (trimChars p) = some none ∨ parse (trimChars p) = some (some "")) →
      processLine parse (dataMarker ++ p) = .skip) :=
  ⟨runStream_mem_ne, processLine_skip_empty⟩

/-- C10 witness: a yielded fragment at a concrete stream is nonempty, and a
concrete empty-content frame is skipped. -/
theorem c10_witness :
    "Hi" ≠ "" ∧ processLine parseFx (dataMarker ++ "frameEmpty".toList) = .skip :=
  ⟨c10_fragments_nonempty.1 parseFx [.chunk "data: frameHi\n".toList] "Hi" (by decide),
   c10_fragments_nonempty.2 parseFx "frameEmpty".toList (by decide) (by decide)⟩
